import Mathlib

/-!
Verification of `github_org_stats.py`: a script that, for each account
identifier, pages through a repository-listing endpoint (organization
shape first, falling back to the user shape on a 404), accumulating
repository count and star total; results are aggregated per display
label, sorted by (stars desc, repos desc) and printed with a totals row.

The HTTP layer is modelled by `PageResp`: the response a server gives to
the request for one page.  The behaviour of a server for an identifier is a
`List PageResp`, the responses to pages 1, 2, ...; every page past the
end of the list is an empty 200 page (the script only terminates on
servers whose listings are finite, and those are exactly the servers of
this form).  Diagnostic `print` lines are modelled by the `Diag`
inductive.  Python strings are modelled by Lean `String`, with
`str.strip` and `str.split` given explicit structurally recursive
definitions (`pyStrip`, `pySplitTab`) mirroring the Python semantics.
-/

namespace GithubOrgStats

/-- Response of the server to one page request: HTTP 200 with a JSON list
of repositories (each reduced to its `stargazers_count` field), HTTP 404,
or any other status code. -/
inductive PageResp where
  | ok (items : List Nat)
  | notFound
  | otherError (status : Nat)
deriving DecidableEq

/-- A diagnostic line printed by the script: the user-not-found message of
`get_user_stats`, or the unexpected-status message of either fetcher. -/
inductive Diag where
  | userNotFound (name : String)
  | fetchError (name : String) (status : Nat)
deriving DecidableEq

/-- The `while True` loop of `get_user_stats`, with the `repo_count` and
`total_stars` accumulators.  An empty 200 page breaks the loop; a 404
prints the user-not-found diagnostic and returns `(0, 0)`; any other
status prints the error diagnostic and returns `(0, 0)`. -/
def userLoop (name : String) : List PageResp → Nat → Nat → (Nat × Nat) × List Diag
  | [], repo_count, total_stars => ((repo_count, total_stars), [])
  | PageResp.ok [] :: _, repo_count, total_stars => ((repo_count, total_stars), [])
  | PageResp.ok (i :: tl) :: rest, repo_count, total_stars =>
      userLoop name rest (repo_count + (i :: tl).length) (total_stars + (i :: tl).sum)
  | PageResp.notFound :: _, _, _ => ((0, 0), [Diag.userNotFound name])
  | PageResp.otherError s :: _, _, _ => ((0, 0), [Diag.fetchError name s])

/-- `get_user_stats`: page through `/users/{name}/repos` starting with
empty accumulators. -/
def get_user_stats (user_name : String) (pages : List PageResp) : (Nat × Nat) × List Diag :=
  userLoop user_name pages 0 0

/-- The `while True` loop of `get_org_stats`.  Identical to `userLoop`
except that a 404 falls back to `get_user_stats` on the user-shaped
listing (discarding the accumulators). -/
def orgLoop (name : String) (userPages : List PageResp) :
    List PageResp → Nat → Nat → (Nat × Nat) × List Diag
  | [], repo_count, total_stars => ((repo_count, total_stars), [])
  | PageResp.ok [] :: _, repo_count, total_stars => ((repo_count, total_stars), [])
  | PageResp.ok (i :: tl) :: rest, repo_count, total_stars =>
      orgLoop name userPages rest (repo_count + (i :: tl).length) (total_stars + (i :: tl).sum)
  | PageResp.notFound :: _, _, _ => get_user_stats name userPages
  | PageResp.otherError s :: _, _, _ => ((0, 0), [Diag.fetchError name s])

/-- `get_org_stats`: page through `/orgs/{name}/repos` starting with empty
accumulators, falling back to the user listing on a 404. -/
def get_org_stats (org_name : String) (orgPages userPages : List PageResp) :
    (Nat × Nat) × List Diag :=
  orgLoop org_name userPages orgPages 0 0

/-- Python `str.strip()`: drop whitespace from both ends. -/
def pyStrip (s : String) : String :=
  ⟨((s.data.dropWhile Char.isWhitespace).reverse.dropWhile Char.isWhitespace).reverse⟩

/-- Helper for `pySplitTab`: splits a character list at every tab,
accumulating the current field in reverse. -/
def splitTabAux : List Char → List Char → List (List Char)
  | [], acc => [acc.reverse]
  | c :: cs, acc =>
      if c = '\t' then acc.reverse :: splitTabAux cs []
      else splitTabAux cs (c :: acc)

/-- Python `str.split('\t')`: fields between tab separators, empty fields
preserved; a string with no tab yields the one-element list of itself. -/
def pySplitTab (s : String) : List String :=
  (splitTabAux s.data []).map fun l => ⟨l⟩

/-- `read_orgs_from_file`, applied to the lines of the file: strip each
line, skip empty ones, split on tabs; two or more fields give
`(parts[0], parts[1])`, a single field gives `(parts[0], parts[0])`. -/
def read_orgs_from_file : List String → List (String × String)
  | [] => []
  | line :: rest =>
      let l := pyStrip line
      if l = "" then read_orgs_from_file rest
      else
        match pySplitTab l with
        | p0 :: p1 :: _ => (p0, p1) :: read_orgs_from_file rest
        | [p0] => (p0, p0) :: read_orgs_from_file rest
        | [] => read_orgs_from_file rest

/-- The aggregation loop of `main` restricted to one display label: fold
the `(display_name, (repos, stars))` results left to right, adding into
the accumulator exactly when the label matches (the dict cell
`display_stats[label]`). -/
def aggLoop : List (String × Nat × Nat) → String → Nat × Nat → Nat × Nat
  | [], _, acc => acc
  | (lab, r, s) :: rest, label, acc =>
      aggLoop rest label (if lab = label then (acc.1 + r, acc.2 + s) else acc)

/-- The contents of the `display_stats` dict viewed as a function: the
value at `label` after folding all `(display_name, stats)` results,
starting from the default `(0, 0)`. -/
def aggregate (entries : List (String × Nat × Nat)) (label : String) : Nat × Nat :=
  aggLoop entries label (0, 0)

/-- The key set of the `display_stats` dict in insertion order: first
occurrence of each display label. -/
def dictKeys (labels : List String) : List String :=
  labels.foldl (fun ks lab => if lab ∈ ks then ks else ks ++ [lab]) []

/-- The comparison realising `sorted(..., key=lambda x: (stars, repos),
reverse=True)`: row `a` may precede row `b` iff the key `(stars, repos)`
of `a` is lexicographically at least that of `b`. -/
def rowLe (a b : String × Nat × Nat) : Bool :=
  decide (b.2.2 < a.2.2 ∨ (b.2.2 = a.2.2 ∧ b.2.1 ≤ a.2.1))

/-- `sorted_stats`: the dict items sorted by star total descending, ties
by repository count descending (stable merge sort, as in CPython). -/
def sortRows (rows : List (String × Nat × Nat)) : List (String × Nat × Nat) :=
  rows.mergeSort rowLe

/-- The totals accumulation of the printing loop: `total_repos` and
`total_stars` summed over the printed rows in order. -/
def report_totals (rows : List (String × Nat × Nat)) : Nat × Nat :=
  rows.foldl (fun acc row => (acc.1 + row.2.1, acc.2 + row.2.2)) (0, 0)

/-- Outcome of a run of `main`: `usageError` is `parser.error` (exit 2,
reached with no file and no positional identifiers), `noOrgs` is the
`sys.exit(1)` on an empty target list, and `report` carries the sorted
table, the totals row and the diagnostic lines of a normal exit-0 run. -/
inductive MainOutcome where
  | usageError
  | noOrgs
  | report (table : List (String × Nat × Nat)) (totals : Nat × Nat) (diags : List Diag)
deriving DecidableEq

/-- Process exit code of each outcome. -/
def exit_code : MainOutcome → Nat
  | MainOutcome.usageError => 2
  | MainOutcome.noOrgs => 1
  | MainOutcome.report _ _ _ => 0

/-- The input-resolution branch of `main`: `if args.file: ... elif
args.organizations: ... else: parser.error(...)`.  `file` is `some lines`
when `--file` was supplied (carrying the lines of the file), `none` otherwise. -/
def resolve_org_data (file : Option (List String)) (organizations : List String) :
    Option (List (String × String)) :=
  match file with
  | some lines => some (read_orgs_from_file lines)
  | none =>
      match organizations with
      | [] => none
      | o :: os => some ((o :: os).map fun o => (o, o))

/-- `main`, with the network abstracted as `server`, mapping an account
identifier to its organization-shaped and user-shaped page responses.
Resolves the targets, fetches each, aggregates per display label, sorts
and computes the totals row. -/
def main (file : Option (List String)) (organizations : List String)
    (server : String → List PageResp × List PageResp) : MainOutcome :=
  match resolve_org_data file organizations with
  | none => MainOutcome.usageError
  | some org_data =>
      if org_data.isEmpty then MainOutcome.noOrgs
      else
        let results := org_data.map fun p =>
          (p.2, get_org_stats p.1 (server p.1).1 (server p.1).2)
        let entries := results.map fun r => (r.1, r.2.1)
        let diags := (results.map fun r => r.2.2).flatten
        let keys := dictKeys (org_data.map fun p => p.2)
        let table := sortRows (keys.map fun lab => (lab, aggregate entries lab))
        MainOutcome.report table (report_totals table) diags

/-! ### Pagination loop lemmas -/

lemma userLoop_ok_append (name : String) (okPages : List (List Nat)) (tail : List PageResp)
    (rc ts : Nat) (h : ∀ p ∈ okPages, p ≠ []) :
    userLoop name (okPages.map PageResp.ok ++ tail) rc ts
      = userLoop name tail (rc + okPages.flatten.length) (ts + okPages.flatten.sum) := by
  induction okPages generalizing rc ts with
  | nil => simp
  | cons p ps ih =>
    cases p with
    | nil => exact absurd rfl (h [] (by simp))
    | cons i tl =>
      simp only [List.map_cons, List.cons_append]
      rw [userLoop, ih _ _ (fun q hq => h q (List.mem_cons_of_mem _ hq))]
      simp only [List.flatten_cons, List.length_append, List.sum_append]
      congr 1 <;> omega

lemma orgLoop_ok_append (name : String) (userPages : List PageResp)
    (okPages : List (List Nat)) (tail : List PageResp)
    (rc ts : Nat) (h : ∀ p ∈ okPages, p ≠ []) :
    orgLoop name userPages (okPages.map PageResp.ok ++ tail) rc ts
      = orgLoop name userPages tail (rc + okPages.flatten.length) (ts + okPages.flatten.sum) := by
  induction okPages generalizing rc ts with
  | nil => simp
  | cons p ps ih =>
    cases p with
    | nil => exact absurd rfl (h [] (by simp))
    | cons i tl =>
      simp only [List.map_cons, List.cons_append]
      rw [orgLoop, ih _ _ (fun q hq => h q (List.mem_cons_of_mem _ hq))]
      simp only [List.flatten_cons, List.length_append, List.sum_append]
      congr 1 <;> omega

lemma userLoop_run (name : String) (pages : List (List Nat)) (rc ts : Nat)
    (h : ∀ p ∈ pages.dropLast, p ≠ []) :
    userLoop name (pages.map PageResp.ok) rc ts
      = ((rc + pages.flatten.length, ts + pages.flatten.sum), []) := by
  induction pages generalizing rc ts with
  | nil => simp [userLoop]
  | cons p ps ih =>
    cases p with
    | nil =>
      cases ps with
      | nil => simp [userLoop]
      | cons q qs => exact absurd rfl (h [] (by simp [List.dropLast_cons₂]))
    | cons i tl =>
      have h' : ∀ q ∈ ps.dropLast, q ≠ [] := by
        intro q hq
        cases ps with
        | nil => simp at hq
        | cons r rs => exact h q (by simp [List.dropLast_cons₂, hq])
      simp only [List.map_cons]
      rw [userLoop, ih _ _ h']
      simp [Nat.add_assoc, Nat.add_comm, Nat.add_left_comm]

lemma orgLoop_run (name : String) (userPages : List PageResp)
    (pages : List (List Nat)) (rc ts : Nat)
    (h : ∀ p ∈ pages.dropLast, p ≠ []) :
    orgLoop name userPages (pages.map PageResp.ok) rc ts
      = ((rc + pages.flatten.length, ts + pages.flatten.sum), []) := by
  induction pages generalizing rc ts with
  | nil => simp [orgLoop]
  | cons p ps ih =>
    cases p with
    | nil =>
      cases ps with
      | nil => simp [orgLoop]
      | cons q qs => exact absurd rfl (h [] (by simp [List.dropLast_cons₂]))
    | cons i tl =>
      have h' : ∀ q ∈ ps.dropLast, q ≠ [] := by
        intro q hq
        cases ps with
        | nil => simp at hq
        | cons r rs => exact h q (by simp [List.dropLast_cons₂, hq])
      simp only [List.map_cons]
      rw [orgLoop, ih _ _ h']
      simp [Nat.add_assoc, Nat.add_comm, Nat.add_left_comm]

/-- C1: if every page request of the listing answers 200 and pagination
stops at the first page with zero items, then the fetcher (organization
shape and user shape alike) returns the total item count across all
pages paired with the sum of the star field of every item across all pages,
for any number of pages and any partition of the listing into pages of
size 100 (each page before the last has exactly 100 items; the last may
be partial or empty), and no diagnostic is printed. -/
theorem c1 (name : String) (pages : List (List Nat)) (userPages : List PageResp)
    (h : ∀ p ∈ pages.dropLast, p.length = 100) :
    get_org_stats name (pages.map PageResp.ok) userPages
        = ((pages.flatten.length, pages.flatten.sum), []) ∧
    get_user_stats name (pages.map PageResp.ok)
        = ((pages.flatten.length, pages.flatten.sum), []) := by
  have h' : ∀ p ∈ pages.dropLast, p ≠ [] := by
    intro p hp e
    subst e
    simpa using h [] hp
  constructor
  · simpa [get_org_stats] using orgLoop_run name userPages pages 0 0 h'
  · simpa [get_user_stats] using userLoop_run name pages 0 0 h'

/-- Witness for C1 at a concrete three-item single-page listing. -/
theorem c1_witness :
    get_org_stats "acme" ([[5, 3, 4]].map PageResp.ok) []
        = ((([[5, 3, 4]] : List (List Nat)).flatten.length,
            ([[5, 3, 4]] : List (List Nat)).flatten.sum), []) ∧
    get_user_stats "acme" ([[5, 3, 4]].map PageResp.ok)
        = ((([[5, 3, 4]] : List (List Nat)).flatten.length,
            ([[5, 3, 4]] : List (List Nat)).flatten.sum), []) :=
  c1 "acme" [[5, 3, 4]] [] (by decide)

/-- C2: when the organization-shaped listing answers 404, the fetch
returns exactly the result of the user-shaped fetch for the same
identifier (same paging algorithm, restarted at page 1). -/
theorem c2 (name : String) (rest userPages : List PageResp) :
    get_org_stats name (PageResp.notFound :: rest) userPages
      = get_user_stats name userPages := rfl

/-- C10: a 404 on an organization page that follows one or more
successful non-empty pages discards everything accumulated from those
pages: the fetch result is exactly a fresh user-shaped fetch, starting
again from page 1 with empty accumulators. -/
theorem c10 (name : String) (okPages : List (List Nat)) (rest userPages : List PageResp)
    (hne : okPages ≠ []) (h : ∀ p ∈ okPages, p ≠ []) :
    get_org_stats name (okPages.map PageResp.ok ++ PageResp.notFound :: rest) userPages
      = get_user_stats name userPages := by
  unfold get_org_stats
  rw [orgLoop_ok_append name userPages okPages _ 0 0 h]
  rfl

/-- Witness for C10: one successful page of two repositories, then a 404;
the result coincides with the fresh user fetch. -/
theorem c10_witness :
    get_org_stats "x" ([[2, 7]].map PageResp.ok ++ PageResp.notFound :: [])
        [PageResp.ok [9], PageResp.ok []]
      = get_user_stats "x" [PageResp.ok [9], PageResp.ok []] :=
  c10 "x" [[2, 7]] [] [PageResp.ok [9], PageResp.ok []] (by decide) (by decide)

/-! ### Aggregation lemmas -/

lemma aggLoop_shift (entries : List (String × Nat × Nat)) (label : String) (a b : Nat) :
    aggLoop entries label (a, b)
      = ((aggLoop entries label (0, 0)).1 + a, (aggLoop entries label (0, 0)).2 + b) := by
  induction entries generalizing a b with
  | nil => simp [aggLoop]
  | cons e rest ih =>
    obtain ⟨lab, r, s⟩ := e
    by_cases hl : lab = label
    · simp only [aggLoop, if_pos hl]
      rw [ih (a + r) (b + s), ih (0 + r) (0 + s)]
      simp [Nat.add_assoc, Nat.add_comm, Nat.add_left_comm]
    · simp only [aggLoop, if_neg hl]
      exact ih a b

lemma aggregate_cons (e : String × Nat × Nat) (rest : List (String × Nat × Nat))
    (label : String) :
    aggregate (e :: rest) label
      = if e.1 = label then
          ((aggregate rest label).1 + e.2.1, (aggregate rest label).2 + e.2.2)
        else aggregate rest label := by
  obtain ⟨lab, r, s⟩ := e
  by_cases hl : lab = label
  · simp only [aggregate, aggLoop, if_pos hl]
    rw [Nat.zero_add, Nat.zero_add, aggLoop_shift]
  · simp only [aggregate, aggLoop, if_neg hl]

lemma aggLoop_of_not_mem (entries : List (String × Nat × Nat)) (label : String)
    (acc : Nat × Nat) (h : ∀ e ∈ entries, e.1 ≠ label) :
    aggLoop entries label acc = acc := by
  induction entries generalizing acc with
  | nil => rfl
  | cons e rest ih =>
    obtain ⟨lab, r, s⟩ := e
    simp only [aggLoop, if_neg (h (lab, r, s) (by simp))]
    exact ih acc (fun x hx => h x (List.mem_cons_of_mem _ hx))

lemma aggregate_map_nodup (names : List String) (g : String → Nat × Nat) (n : String)
    (hnd : names.Nodup) (hn : n ∈ names) :
    aggregate (names.map fun m => (m, g m)) n = g n := by
  induction names with
  | nil => cases hn
  | cons m ms ih =>
    rcases List.nodup_cons.mp hnd with ⟨hm, hnd'⟩
    rw [List.map_cons, aggregate_cons]
    rcases List.mem_cons.mp hn with rfl | hn'
    · rw [if_pos rfl]
      have hzero : aggregate (ms.map fun m' => (m', g m')) n = (0, 0) := by
        apply aggLoop_of_not_mem
        intro e he
        rcases List.mem_map.mp he with ⟨m', hm', rfl⟩
        show m' ≠ n
        intro hcontra
        subst hcontra
        exact hm hm'
      rw [hzero]
      simp
    · rw [if_neg ?_]
      · exact ih hnd' hn'
      · show m ≠ n
        intro hcontra
        subst hcontra
        exact hm hn'

/-! ### Dict-key lemmas -/

lemma dictKeys_go (l : List String) :
    ∀ acc : List String, l.Nodup → (∀ x ∈ l, x ∉ acc) →
      List.foldl (fun ks lab => if lab ∈ ks then ks else ks ++ [lab]) acc l = acc ++ l := by
  induction l with
  | nil => intro acc _ _; simp
  | cons x xs ih =>
    intro acc hnd hdisj
    rcases List.nodup_cons.mp hnd with ⟨hx, hnd'⟩
    have hdisj' : ∀ y ∈ xs, y ∉ acc ++ [x] := by
      intro y hy hmem
      rcases List.mem_append.mp hmem with hya | hyx
      · exact hdisj y (List.mem_cons_of_mem _ hy) hya
      · rw [List.mem_singleton] at hyx
        subst hyx
        exact hx hy
    rw [List.foldl_cons, if_neg (hdisj x (by simp)), ih (acc ++ [x]) hnd' hdisj']
    simp

lemma dictKeys_nodup_eq (labels : List String) (h : labels.Nodup) :
    dictKeys labels = labels := by
  simpa [dictKeys] using dictKeys_go labels [] h (by simp)

/-! ### Unfolding `main` on positional identifiers -/

lemma main_positional (names : List String)
    (server : String → List PageResp × List PageResp)
    (hne : names ≠ []) (hnd : names.Nodup) :
    main none names server
      = MainOutcome.report
          (sortRows (names.map fun n =>
            (n, (get_org_stats n (server n).1 (server n).2).1)))
          (report_totals (sortRows (names.map fun n =>
            (n, (get_org_stats n (server n).1 (server n).2).1))))
          ((names.map fun n =>
            (get_org_stats n (server n).1 (server n).2).2).flatten) := by
  obtain ⟨o, os, rfl⟩ : ∃ o os, names = o :: os := by
    cases names with
    | nil => exact absurd rfl hne
    | cons o os => exact ⟨o, os, rfl⟩
  have hres : resolve_org_data none (o :: os)
      = some ((o :: os).map fun x => (x, x)) := rfl
  rw [main, hres]
  have hie : (List.map (fun x => (x, x)) (o :: os)).isEmpty = false := by simp
  have hsnd : List.map (fun p => p.2) (List.map (fun x => (x, x)) (o :: os)) = o :: os := by
    simp [List.map_map, Function.comp_def]
  have hentries : List.map (fun r => (r.1, r.2.1))
      (List.map (fun p => (p.2, get_org_stats p.1 (server p.1).1 (server p.1).2))
        (List.map (fun x => (x, x)) (o :: os)))
      = List.map (fun n => (n, (get_org_stats n (server n).1 (server n).2).1)) (o :: os) := by
    simp [List.map_map, Function.comp_def]
  have hdiags : List.map (fun r => r.2.2)
      (List.map (fun p => (p.2, get_org_stats p.1 (server p.1).1 (server p.1).2))
        (List.map (fun x => (x, x)) (o :: os)))
      = List.map (fun n => (get_org_stats n (server n).1 (server n).2).2) (o :: os) := by
    simp [List.map_map, Function.comp_def]
  have hrows : List.map (fun lab =>
        (lab, aggregate (List.map (fun n =>
          (n, (get_org_stats n (server n).1 (server n).2).1)) (o :: os)) lab)) (o :: os)
      = List.map (fun n => (n, (get_org_stats n (server n).1 (server n).2).1)) (o :: os) :=
    List.map_congr_left fun lab hlab => by
      rw [aggregate_map_nodup (o :: os) _ lab hnd hlab]
  simp only [hie, Bool.false_eq_true, if_false, hsnd, hentries, hdiags,
    dictKeys_nodup_eq _ hnd, hrows]

/-! ### Claims about failing targets inside a whole run -/

/-- C3: an identifier that 404s on both the organization and the user
endpoint fetches exactly `(0, 0)` with the user-not-found diagnostic; in
a run over a list of targets containing it (labels pairwise distinct),
the run still produces a report that exits 0, the failing target appears
in the table as a row with repos = 0 and stars = 0, the diagnostic is
among the emitted lines, and the fetched row of every remaining target is in
the table as well. -/
theorem c3 (name : String) (o u : List PageResp) (ns1 ns2 : List String)
    (server : String → List PageResp × List PageResp)
    (hs : server name = (PageResp.notFound :: o, PageResp.notFound :: u))
    (hnd : (ns1 ++ name :: ns2).Nodup) :
    get_org_stats name (PageResp.notFound :: o) (PageResp.notFound :: u)
        = ((0, 0), [Diag.userNotFound name]) ∧
    ∃ tbl tot dgs,
      main none (ns1 ++ name :: ns2) server = MainOutcome.report tbl tot dgs ∧
      exit_code (main none (ns1 ++ name :: ns2) server) = 0 ∧
      (name, 0, 0) ∈ tbl ∧
      Diag.userNotFound name ∈ dgs ∧
      ∀ n ∈ ns1 ++ ns2,
        (n, (get_org_stats n (server n).1 (server n).2).1) ∈ tbl := by
  have hname : name ∈ ns1 ++ name :: ns2 := by simp
  have hmain := main_positional (ns1 ++ name :: ns2) server (by simp) hnd
  have hfetch : get_org_stats name (server name).1 (server name).2
      = ((0, 0), [Diag.userNotFound name]) := by rw [hs]; rfl
  refine ⟨rfl, _, _, _, hmain, by rw [hmain]; rfl, ?_, ?_, ?_⟩
  · rw [show ((name, 0, 0) : String × Nat × Nat)
        = (name, (get_org_stats name (server name).1 (server name).2).1) by rw [hfetch]]
    exact List.mem_mergeSort.mpr (List.mem_map_of_mem _ hname)
  · refine List.mem_flatten.mpr ⟨[Diag.userNotFound name], ?_, by simp⟩
    refine List.mem_map.mpr ⟨name, hname, ?_⟩
    rw [hfetch]
  · intro n hn
    exact List.mem_mergeSort.mpr
      (List.mem_map_of_mem _ (by
        rcases List.mem_append.mp hn with h1 | h2
        · exact List.mem_append.mpr (Or.inl h1)
        · exact List.mem_append.mpr (Or.inr (List.mem_cons_of_mem _ h2))))

/-- Witness for C3: target `x` 404s on both shapes, while target `a`
succeeds with one two-repository page. -/
theorem c3_witness :
    get_org_stats "x" [PageResp.notFound] [PageResp.notFound]
        = ((0, 0), [Diag.userNotFound "x"]) ∧
    ∃ tbl tot dgs,
      main none (["a"] ++ "x" :: [])
          (fun n => if n = "x" then ([PageResp.notFound], [PageResp.notFound])
                    else ([PageResp.ok [4, 6]], []))
        = MainOutcome.report tbl tot dgs ∧
      exit_code (main none (["a"] ++ "x" :: [])
          (fun n => if n = "x" then ([PageResp.notFound], [PageResp.notFound])
                    else ([PageResp.ok [4, 6]], []))) = 0 ∧
      ("x", 0, 0) ∈ tbl ∧
      Diag.userNotFound "x" ∈ dgs ∧
      ∀ n ∈ (["a"] ++ ([] : List String)),
        (n, (get_org_stats n
              ((fun n => if n = "x" then ([PageResp.notFound], [PageResp.notFound])
                         else ([PageResp.ok [4, 6]], ([] : List PageResp))) n).1
              ((fun n => if n = "x" then ([PageResp.notFound], [PageResp.notFound])
                         else ([PageResp.ok [4, 6]], ([] : List PageResp))) n).2).1) ∈ tbl :=
  c3 "x" [] [] ["a"] []
    (fun n => if n = "x" then ([PageResp.notFound], [PageResp.notFound])
              else ([PageResp.ok [4, 6]], []))
    (by decide) (by decide)

/-- C4: a status other than 200 and 404 on any page (here: after a run of
successful non-empty pages) terminates the fetch at once with exactly
`(0, 0)` — discarding everything already accumulated and, for the
organization shape, never consulting the user listing — and emits the
error diagnostic.  In a run over a list of targets containing such an
identifier (labels pairwise distinct), the run still produces a report
that exits 0, the failing target appears as a `(0, 0)` row, the
diagnostic is emitted, and the fetched row of every remaining target is in
the table. -/
theorem c4 (name : String) (status : Nat) (okPagesO okPagesU : List (List Nat))
    (restO restU userPages : List PageResp) (ns1 ns2 : List String)
    (server : String → List PageResp × List PageResp)
    (hO : ∀ p ∈ okPagesO, p ≠ []) (hU : ∀ p ∈ okPagesU, p ≠ [])
    (hs : (server name).1
        = okPagesO.map PageResp.ok ++ PageResp.otherError status :: restO)
    (hnd : (ns1 ++ name :: ns2).Nodup) :
    get_org_stats name (okPagesO.map PageResp.ok ++ PageResp.otherError status :: restO)
        userPages
      = ((0, 0), [Diag.fetchError name status]) ∧
    get_user_stats name (okPagesU.map PageResp.ok ++ PageResp.otherError status :: restU)
      = ((0, 0), [Diag.fetchError name status]) ∧
    ∃ tbl tot dgs,
      main none (ns1 ++ name :: ns2) server = MainOutcome.report tbl tot dgs ∧
      exit_code (main none (ns1 ++ name :: ns2) server) = 0 ∧
      (name, 0, 0) ∈ tbl ∧
      Diag.fetchError name status ∈ dgs ∧
      ∀ n ∈ ns1 ++ ns2,
        (n, (get_org_stats n (server n).1 (server n).2).1) ∈ tbl := by
  have horg : ∀ up : List PageResp,
      get_org_stats name (okPagesO.map PageResp.ok ++ PageResp.otherError status :: restO) up
        = ((0, 0), [Diag.fetchError name status]) := by
    intro up
    unfold get_org_stats
    rw [orgLoop_ok_append name up okPagesO _ 0 0 hO]
    rfl
  have huser : get_user_stats name
      (okPagesU.map PageResp.ok ++ PageResp.otherError status :: restU)
        = ((0, 0), [Diag.fetchError name status]) := by
    unfold get_user_stats
    rw [userLoop_ok_append name okPagesU _ 0 0 hU]
    rfl
  have hname : name ∈ ns1 ++ name :: ns2 := by simp
  have hmain := main_positional (ns1 ++ name :: ns2) server (by simp) hnd
  have hfetch : get_org_stats name (server name).1 (server name).2
      = ((0, 0), [Diag.fetchError name status]) := by rw [hs]; exact horg _
  refine ⟨horg userPages, huser, _, _, _, hmain, by rw [hmain]; rfl, ?_, ?_, ?_⟩
  · rw [show ((name, 0, 0) : String × Nat × Nat)
        = (name, (get_org_stats name (server name).1 (server name).2).1) by rw [hfetch]]
    exact List.mem_mergeSort.mpr (List.mem_map_of_mem _ hname)
  · refine List.mem_flatten.mpr ⟨[Diag.fetchError name status], ?_, by simp⟩
    refine List.mem_map.mpr ⟨name, hname, ?_⟩
    rw [hfetch]
  · intro n hn
    exact List.mem_mergeSort.mpr
      (List.mem_map_of_mem _ (by
        rcases List.mem_append.mp hn with h1 | h2
        · exact List.mem_append.mpr (Or.inl h1)
        · exact List.mem_append.mpr (Or.inr (List.mem_cons_of_mem _ h2))))

/-- Witness for C4: identifier `x` gets one successful page of one
repository and then a 500 on page 2; target `a` succeeds. -/
theorem c4_witness :
    get_org_stats "x" ([[1]].map PageResp.ok ++ PageResp.otherError 500 :: []) []
      = ((0, 0), [Diag.fetchError "x" 500]) ∧
    get_user_stats "x" ([].map PageResp.ok ++ PageResp.otherError 500 :: [])
      = ((0, 0), [Diag.fetchError "x" 500]) ∧
    ∃ tbl tot dgs,
      main none ([] ++ "x" :: ["a"])
          (fun n => if n = "x"
                    then ([[1]].map PageResp.ok ++ PageResp.otherError 500 :: [], [])
                    else ([PageResp.ok [4, 6]], []))
        = MainOutcome.report tbl tot dgs ∧
      exit_code (main none ([] ++ "x" :: ["a"])
          (fun n => if n = "x"
                    then ([[1]].map PageResp.ok ++ PageResp.otherError 500 :: [], [])
                    else ([PageResp.ok [4, 6]], []))) = 0 ∧
      ("x", 0, 0) ∈ tbl ∧
      Diag.fetchError "x" 500 ∈ dgs ∧
      ∀ n ∈ (([] : List String) ++ ["a"]),
        (n, (get_org_stats n
              ((fun n => if n = "x"
                         then ([[1]].map PageResp.ok ++ PageResp.otherError 500 :: [],
                               ([] : List PageResp))
                         else ([PageResp.ok [4, 6]], ([] : List PageResp))) n).1
              ((fun n => if n = "x"
                         then ([[1]].map PageResp.ok ++ PageResp.otherError 500 :: [],
                               ([] : List PageResp))
                         else ([PageResp.ok [4, 6]], ([] : List PageResp))) n).2).1) ∈ tbl :=
  c4 "x" 500 [[1]] [] [] [] [] [] ["a"]
    (fun n => if n = "x"
              then ([[1]].map PageResp.ok ++ PageResp.otherError 500 :: [], [])
              else ([PageResp.ok [4, 6]], []))
    (by decide) (by decide) (by decide) (by decide)

/-! ### Aggregator, sort, totals and CLI claims -/

/-- C5: the aggregator maps every display label to a total that starts at
`(0, 0)` on the empty sequence, accumulates repo counts and star totals
additively entry by entry, and is invariant under every permutation of
the input sequence of `(label, stats)` pairs. -/
theorem c5 (entries1 entries2 : List (String × Nat × Nat))
    (h : entries1.Perm entries2) :
    (∀ label, aggregate [] label = (0, 0)) ∧
    (∀ e rest label, aggregate (e :: rest) label
        = if e.1 = label then
            ((aggregate rest label).1 + e.2.1, (aggregate rest label).2 + e.2.2)
          else aggregate rest label) ∧
    aggregate entries1 = aggregate entries2 := by
  refine ⟨fun _ => rfl, fun e rest label => aggregate_cons e rest label, ?_⟩
  induction h with
  | nil => rfl
  | cons x ht ih =>
      funext label
      rw [aggregate_cons, aggregate_cons, ih]
  | swap x y l =>
      funext label
      rw [aggregate_cons, aggregate_cons, aggregate_cons, aggregate_cons]
      by_cases hx : x.1 = label <;> by_cases hy : y.1 = label <;>
        simp [hx, hy, Nat.add_assoc, Nat.add_comm, Nat.add_left_comm]
  | trans h1 h2 ih1 ih2 => rw [ih1, ih2]

/-- Witness for C5 on a concrete two-entry sequence and its reversal. -/
theorem c5_witness :
    (∀ label, aggregate [] label = (0, 0)) ∧
    (∀ e rest label, aggregate (e :: rest) label
        = if e.1 = label then
            ((aggregate rest label).1 + e.2.1, (aggregate rest label).2 + e.2.2)
          else aggregate rest label) ∧
    aggregate [("a", 1, 2), ("b", 3, 4)] = aggregate [("b", 3, 4), ("a", 1, 2)] :=
  c5 [("a", 1, 2), ("b", 3, 4)] [("b", 3, 4), ("a", 1, 2)]
    (List.Perm.swap ("b", 3, 4) ("a", 1, 2) [])

/-- C6: in the sorted output, every row that appears before another has
at least its star total, and among rows with equal star totals the
earlier row has at least the repository count of the later one — i.e. sorting
is by star total descending with ties broken by repository count
descending (order among rows equal on both keys unspecified). -/
theorem c6 (rows : List (String × Nat × Nat)) :
    (sortRows rows).Pairwise
      (fun a b => b.2.2 ≤ a.2.2 ∧ (a.2.2 = b.2.2 → b.2.1 ≤ a.2.1)) := by
  have htrans : ∀ a b c : String × Nat × Nat, rowLe a b → rowLe b c → rowLe a c := by
    intro a b c hab hbc
    simp only [rowLe, decide_eq_true_eq] at *
    omega
  have htotal : ∀ a b : String × Nat × Nat, rowLe a b || rowLe b a := by
    intro a b
    simp only [rowLe, Bool.or_eq_true, decide_eq_true_eq]
    omega
  unfold sortRows
  refine (List.sorted_mergeSort htrans htotal rows).imp ?_
  intro a b hab
  simp only [rowLe, decide_eq_true_eq] at hab
  exact ⟨by omega, fun he => by omega⟩

lemma report_totals_go (rows : List (String × Nat × Nat)) (a b : Nat) :
    rows.foldl (fun acc row => (acc.1 + row.2.1, acc.2 + row.2.2)) (a, b)
      = (a + (rows.map fun r => r.2.1).sum, b + (rows.map fun r => r.2.2).sum) := by
  induction rows generalizing a b with
  | nil => simp
  | cons r rs ih =>
      simp only [List.foldl_cons, List.map_cons, List.sum_cons]
      rw [ih]
      simp [Nat.add_assoc]

/-- C7: the totals row accumulated by the printing loop equals the
element-wise sum of all printed rows — repository counts summed in the
first component, star counts in the second — both for an arbitrary row
list and for the sorted table actually printed. -/
theorem c7 (rows : List (String × Nat × Nat)) :
    report_totals rows
        = ((rows.map fun r => r.2.1).sum, (rows.map fun r => r.2.2).sum) ∧
    report_totals (sortRows rows)
        = ((rows.map fun r => r.2.1).sum, (rows.map fun r => r.2.2).sum) := by
  have h1 : ∀ rs : List (String × Nat × Nat),
      report_totals rs = ((rs.map fun r => r.2.1).sum, (rs.map fun r => r.2.2).sum) := by
    intro rs
    unfold report_totals
    rw [report_totals_go]
    simp
  refine ⟨h1 rows, ?_⟩
  rw [h1 (sortRows rows)]
  have hperm : (sortRows rows).Perm rows := List.mergeSort_perm rows rowLe
  rw [(hperm.map fun r => r.2.1).sum_eq, (hperm.map fun r => r.2.2).sum_eq]

/-- C8 counterexample: supplying both a file (one line `a`) and a
positional identifier `b` does NOT produce a usage error — the run
proceeds on the file and exits 0, ignoring the positional argument. -/
theorem c8_counterexample :
    main (some ["a"]) ["b"]
        (fun _ => (([] : List PageResp), ([] : List PageResp)))
      ≠ MainOutcome.usageError ∧
    exit_code (main (some ["a"]) ["b"]
        (fun _ => (([] : List PageResp), ([] : List PageResp)))) = 0 := by
  constructor
  · decide
  · decide

/-- C8 (amended): supplying neither positional identifiers nor a file
yields the usage error and a non-zero exit, independently of the server
(so before any network activity); but supplying both is NOT an error:
the file takes precedence and the positional identifiers are ignored. -/
theorem c8_amended :
    (∀ server, main none [] server = MainOutcome.usageError) ∧
    (∀ server, exit_code (main none [] server) ≠ 0) ∧
    (∀ lines orgs server, main (some lines) orgs server = main (some lines) [] server) := by
  refine ⟨fun _ => rfl, ?_, fun _ _ _ => rfl⟩
  intro server
  rw [show main none [] server = MainOutcome.usageError from rfl]
  decide

/-! ### File-reader claims -/

lemma splitTabAux_no_tab (cs : List Char) (acc : List Char)
    (h : ∀ c ∈ cs, c ≠ '\t') :
    splitTabAux cs acc = [acc.reverse ++ cs] := by
  induction cs generalizing acc with
  | nil => simp [splitTabAux]
  | cons c cs ih =>
      rw [splitTabAux, if_neg (h c (by simp))]
      rw [ih (c :: acc) (fun x hx => h x (List.mem_cons_of_mem _ hx))]
      simp

lemma pySplitTab_no_tab (s : String) (h : ∀ c ∈ s.data, c ≠ '\t') :
    pySplitTab s = [s] := by
  unfold pySplitTab
  rw [splitTabAux_no_tab s.data [] h]
  simp

/-- C9: a stripped non-empty line with no tab character (a single column)
is read as the pair using that column for both identifier and display
label; a line splitting into two or more tab-separated columns is read
as (first column, second column). -/
theorem c9 (line : String) (h : pyStrip line ≠ "") :
    ((∀ c ∈ (pyStrip line).data, c ≠ '\t') →
        read_orgs_from_file [line] = [(pyStrip line, pyStrip line)]) ∧
    (∀ c1 c2 rest2, pySplitTab (pyStrip line) = c1 :: c2 :: rest2 →
        read_orgs_from_file [line] = [(c1, c2)]) := by
  constructor
  · intro hnt
    simp only [read_orgs_from_file, if_neg h, pySplitTab_no_tab _ hnt]
  · intro c1 c2 rest2 hsplit
    simp only [read_orgs_from_file, if_neg h, hsplit]

/-- Witness for C9 at the concrete lines `ab` (no tab) and `a TAB b`. -/
theorem c9_witness :
    read_orgs_from_file ["ab"] = [(pyStrip "ab", pyStrip "ab")] ∧
    read_orgs_from_file ["a\tb"] = [("a", "b")] := by
  constructor
  · exact (c9 "ab" (by decide)).1 (by decide)
  · exact (c9 "a\tb" (by decide)).2 "a" "b" [] (by decide)

end GithubOrgStats
